import Mathlib

/-!
Verification of the Synthetix exchange/settlement engine specification.

The repository contains the test suite for the Exchanger contract
(waiting period, exchange enabling, settlement stubs), the ISynthetix
interface, and the replace-synths deployment command.  The engine
implementation itself (Exchanger: maxSecsLeftInWaitingPeriod, quote,
settle, exchange) is not among the source files — only its tests,
interface declarations and callers are — so the engine operations below
are modelled from the specification and checked against it; the
replace-synths precondition logic is translated directly from
src/publish/src/commands/replace-synths.js.
-/

namespace Synthetix

/-- Accounts are opaque identifiers (addresses in the source). -/
abbrev Account := String

/-- Asset identifiers are opaque symbol codes (bytes32 keys in the source). -/
abbrev AssetId := String

/-- Fixed-point unit: all amounts, rates and fee rates carry 18 decimals
(toUnit in the test scaffolding). -/
def UNIT : Nat := 10 ^ 18

/-- Modelled from the spec (section 3, ExchangeEntry): one record of a
completed conversion into a destination asset for an account. -/
structure ExchangeEntry where
  sourceAsset : AssetId
  destAmount : Nat
  exchangeTimestamp : Nat
  rateAtExchange : Nat
deriving DecidableEq, Repr

/-- Modelled from the spec (section 3, EngineConfig): process-wide engine
configuration. -/
structure EngineConfig where
  waitingPeriodSeconds : Nat
  exchangeFeeRate : Nat
  enabled : Bool
deriving DecidableEq, Repr

/-- A rate oracle answer: price (fixed point) and staleness flag. -/
structure RateInfo where
  price : Nat
  stale : Bool
deriving DecidableEq, Repr

/-- Modelled from the spec (section 6): the external Rate Oracle. -/
abbrev RateOracle := AssetId → RateInfo

/-- Modelled from the spec (section 3, ReconciliationResult). -/
structure ReconciliationResult where
  reclaimAmount : Nat
  rebateAmount : Nat
deriving DecidableEq, Repr

/-- The SynthExchange event observed in the tests (fields asserted in the
setExchangeEnabled test of the Exchanger suite). -/
structure ExchangeEvent where
  account : Account
  fromCurrencyKey : AssetId
  fromAmount : Nat
  toCurrencyKey : AssetId
  toAmount : Nat
deriving DecidableEq, Repr

/-- Modelled from the spec (section 3, ExchangeLedger; section 6, Issuance
Ledger balances): the engine-visible state.  An empty entry sequence is
equivalent to absence of the key, so the ledger is total. -/
structure EngineState where
  ledger : Account → AssetId → List ExchangeEntry
  balances : Account → AssetId → Nat
  events : List ExchangeEvent

/-- Modelled from the spec (4.1): remaining cooldown seconds, computed from
the most recent entry for the pair; 0 when no entry exists; otherwise
max(0, waitingPeriodSeconds - (now - exchangeTimestamp)). -/
def maxSecsLeftInWaitingPeriod (cfg : EngineConfig) (st : EngineState) (now : Nat)
    (acc : Account) (asset : AssetId) : Nat :=
  match (st.ledger acc asset).getLast? with
  | none => 0
  | some e =>
      (max 0 ((cfg.waitingPeriodSeconds : Int) - ((now : Int) - (e.exchangeTimestamp : Int)))).toNat

/-- Modelled from the spec (4.1): an exchange out of an asset is allowed
exactly when no cooldown remains on it. -/
def canExchangeFrom (cfg : EngineConfig) (st : EngineState) (now : Nat)
    (acc : Account) (asset : AssetId) : Bool :=
  maxSecsLeftInWaitingPeriod cfg st now acc asset = 0

/-- Modelled from the spec (section 7): the engine error taxonomy. -/
inductive EngineError
  | ExchangeDisabled
  | ZeroAmount
  | SameAsset
  | StaleRate
  | WaitingPeriodActive
  | ShortfallOnReclaim
  | UnknownAsset
deriving DecidableEq, Repr

/-- Modelled from the spec (4.2, Fee Calculator): convert at oracle rates,
multiply before divide, then subtract a proportional fee. -/
def quote (cfg : EngineConfig) (rates : RateOracle) (src dest : AssetId)
    (sourceAmount : Nat) : Except EngineError (Nat × Nat) :=
  if (rates src).stale || (rates dest).stale then .error .StaleRate
  else if sourceAmount = 0 then .error .ZeroAmount
  else
    let destAmountBeforeFee := sourceAmount * (rates src).price / (rates dest).price
    let feeAmount := destAmountBeforeFee * cfg.exchangeFeeRate / UNIT
    .ok (destAmountBeforeFee - feeAmount, feeAmount)

/-- Modelled from the spec (4.4): an entry is eligible for settlement once
its own cooldown has fully elapsed (per-entry rule). -/
def entryEligible (cfg : EngineConfig) (now : Nat) (e : ExchangeEntry) : Bool :=
  e.exchangeTimestamp + cfg.waitingPeriodSeconds ≤ now

/-- Modelled from the spec (4.4 step 2): current value of the held amount,
reconverting the entry through the current oracle rate for the destination
asset against the rate basis retained in the entry. -/
def entryValueNow (rates : RateOracle) (asset : AssetId) (e : ExchangeEntry) : Nat :=
  e.destAmount * (rates asset).price / e.rateAtExchange

/-- Modelled from the spec (4.4 steps 1-4): walk the entries of a pair,
accumulating a reclaim total and a rebate total over the eligible entries
and keeping the ineligible ones.  Returns
(reclaimTotal, rebateTotal, remaining entries). -/
def settleWalk (cfg : EngineConfig) (rates : RateOracle) (asset : AssetId) (now : Nat) :
    List ExchangeEntry → Nat × Nat × List ExchangeEntry
  | [] => (0, 0, [])
  | e :: es =>
    let t := settleWalk cfg rates asset now es
    if entryEligible cfg now e then
      let delta : Int := (entryValueNow rates asset e : Int) - (e.destAmount : Int)
      if delta < 0 then (t.1 + (-delta).toNat, t.2.1, t.2.2)
      else (t.1, t.2.1 + delta.toNat, t.2.2)
    else (t.1, t.2.1, e :: t.2.2)

/-- Modelled from the spec (4.4, Settlement Reconciler): settle the pair,
netting the totals into a single-direction ReconciliationResult and
removing the settled (eligible) entries from the ledger. -/
def settle (cfg : EngineConfig) (rates : RateOracle) (st : EngineState) (now : Nat)
    (acc : Account) (asset : AssetId) : ReconciliationResult × EngineState :=
  let t := settleWalk cfg rates asset now (st.ledger acc asset)
  (⟨t.1 - t.2.1, t.2.1 - t.1⟩,
   { st with ledger := fun a s => if a = acc ∧ s = asset then t.2.2 else st.ledger a s })

/-- Modelled from the spec (section 6, Issuance Ledger): apply a net
reclaim/rebate to the account's balance of the settled asset. -/
def applySettlement (st : EngineState) (acc : Account) (asset : AssetId)
    (r : ReconciliationResult) : EngineState :=
  { st with balances := fun a s =>
      if a = acc ∧ s = asset then st.balances a s - r.reclaimAmount + r.rebateAmount
      else st.balances a s }

/-- Modelled from the spec (4.5 step 5): the state after settling the
source-asset entries of the exchanging account and applying the net
adjustment. -/
def postSettleState (cfg : EngineConfig) (rates : RateOracle) (st : EngineState)
    (now : Nat) (acc : Account) (asset : AssetId) : EngineState :=
  let p := settle cfg rates st now acc asset
  applySettlement p.2 acc asset p.1

/-- Modelled from the spec (4.5 effects): debit source, credit destination,
append a new entry for (account, destAsset) at the current time, emit a
single SynthExchange event. -/
def recordExchange (st : EngineState) (now : Nat) (acc : Account) (src : AssetId)
    (srcAmount : Nat) (dest : AssetId) (destAmount : Nat) (rateUsed : Nat) : EngineState :=
  { ledger := fun a s =>
      if a = acc ∧ s = dest then st.ledger a s ++ [⟨src, destAmount, now, rateUsed⟩]
      else st.ledger a s,
    balances := fun a s =>
      if a = acc ∧ s = src then st.balances a s - srcAmount
      else if a = acc ∧ s = dest then st.balances a s + destAmount
      else st.balances a s,
    events := st.events ++ [⟨acc, src, srcAmount, dest, destAmount⟩] }

/-- Modelled from the spec (4.5, Exchange Orchestrator): preconditions in
order, first failure wins; a failure is all-or-nothing, so an error result
carries no state change. -/
def exchange (cfg : EngineConfig) (rates : RateOracle) (st : EngineState) (now : Nat)
    (acc : Account) (src : AssetId) (srcAmount : Nat) (dest : AssetId) :
    Except EngineError (Nat × EngineState) :=
  if cfg.enabled = false then .error .ExchangeDisabled
  else if srcAmount = 0 then .error .ZeroAmount
  else if (rates src).stale || (rates dest).stale then .error .StaleRate
  else if src = dest then .error .SameAsset
  else
    let stS := postSettleState cfg rates st now acc src
    if maxSecsLeftInWaitingPeriod cfg stS now acc src ≠ 0 then .error .WaitingPeriodActive
    else
      match quote cfg rates src dest srcAmount with
      | .error e => .error e
      | .ok q =>
          .ok (q.1, recordExchange stS now acc src srcAmount dest q.1
                      ((rates src).price * UNIT / (rates dest).price))

/-- Whether an exchange call succeeds. -/
def exchangeOk (cfg : EngineConfig) (rates : RateOracle) (st : EngineState) (now : Nat)
    (acc : Account) (src : AssetId) (srcAmount : Nat) (dest : AssetId) : Bool :=
  match exchange cfg rates st now acc src srcAmount dest with
  | .ok _ => true
  | .error _ => false

/-- The state after an exchange call; an error leaves the state unchanged
(all-or-nothing failure semantics of 4.5). -/
def exchangeState (cfg : EngineConfig) (rates : RateOracle) (st : EngineState) (now : Nat)
    (acc : Account) (src : AssetId) (srcAmount : Nat) (dest : AssetId) : EngineState :=
  match exchange cfg rates st now acc src srcAmount dest with
  | .ok p => p.2
  | .error _ => st

/-- The destination amount credited by an exchange call (0 on failure). -/
def exchangeAmount (cfg : EngineConfig) (rates : RateOracle) (st : EngineState) (now : Nat)
    (acc : Account) (src : AssetId) (srcAmount : Nat) (dest : AssetId) : Nat :=
  match exchange cfg rates st now acc src srcAmount dest with
  | .ok p => p.1
  | .error _ => 0

/-!
The replace-synths command (src/publish/src/commands/replace-synths.js).
The action's early-return and sanity-check logic (lines 131-166) is a pure
function of the requested synth list, the configured synth list, the
subclass option and the set of compiled source files; everything past it
(loadConnections, deployment, transactions) is reached only when it falls
through.
-/

/-- Outcome of the replace-synths action up to the point where connections
are loaded: which early return fired, or that execution proceeds. -/
inductive ReplaceOutcome
  | earlyNoSynths
  | earlyNoSubclass
  | earlyNoSource
  | refusedNotFound (synth : String)
  | refusedProtected (synth : String)
  | proceed
deriving DecidableEq, Repr

/-- The sanity-check loop of replace-synths.js lines 156-166: for each
requested synth, refuse (exit code 1) when it is absent from the configured
synth list, else refuse when it is XDR or sUSD; fall through otherwise. -/
def sanityCheckSynths (synths : List String) : List String → Option ReplaceOutcome
  | [] => none
  | synth :: rest =>
    if (synths.filter (fun name => name == synth)).length < 1 then
      some (.refusedNotFound synth)
    else if ["XDR", "sUSD"].contains synth then
      some (.refusedProtected synth)
    else sanityCheckSynths synths rest

/-- The replace-synths action of replace-synths.js lines 131-166: early
returns for an empty request list, a missing subclass option, and a missing
compiled source file for the subclass, then the sanity-check loop; synths
is the configured synth list, compiledSources the available compiled
source names. -/
def replaceSynthsAction (synths : List String) (synthsToReplace : List String)
    (subclass : Option String) (compiledSources : List String) : ReplaceOutcome :=
  if synthsToReplace.length < 1 then .earlyNoSynths
  else
    match subclass with
    | none => .earlyNoSubclass
    | some sc =>
      if compiledSources.contains sc = false then .earlyNoSource
      else
        match sanityCheckSynths synths synthsToReplace with
        | some out => out
        | none => .proceed

/-- The process exit code set by each outcome: the two refusal branches set
process.exitCode = 1; the other early returns leave it unset. -/
def outcomeExitCode : ReplaceOutcome → Option Nat
  | .refusedNotFound _ => some 1
  | .refusedProtected _ => some 1
  | _ => none

/-- Whether the action goes on to loadConnections (line 168) and the
deployment steps after it. -/
def outcomeLoadsConnections : ReplaceOutcome → Bool
  | .proceed => true
  | _ => false

/-!  Helper lemmas about the settlement walk and the ledger. -/

/-- The entries kept by a settlement walk are exactly the ineligible ones,
in order. -/
lemma settleWalk_remaining (cfg : EngineConfig) (rates : RateOracle) (asset : AssetId)
    (now : Nat) (es : List ExchangeEntry) :
    (settleWalk cfg rates asset now es).2.2 =
      es.filter (fun e => !entryEligible cfg now e) := by
  induction es with
  | nil => rfl
  | cons e es ih =>
    simp only [settleWalk, List.filter]
    cases h : entryEligible cfg now e with
    | false => simp [h, ih]
    | true =>
      simp only [h, if_true, Bool.not_true]
      split <;> simpa using ih

/-- A settlement walk over entries none of which is eligible accumulates
nothing and keeps every entry. -/
lemma settleWalk_none_eligible (cfg : EngineConfig) (rates : RateOracle) (asset : AssetId)
    (now : Nat) (es : List ExchangeEntry)
    (h : ∀ e ∈ es, entryEligible cfg now e = false) :
    settleWalk cfg rates asset now es = (0, 0, es) := by
  induction es with
  | nil => rfl
  | cons e es ih =>
    have he : entryEligible cfg now e = false := h e (by simp)
    have ih' := ih (fun x hx => h x (by simp [hx]))
    simp [settleWalk, he, ih']

/-- Pointwise characterisation of the ledger after settle: the settled
pair keeps only its ineligible entries, every other pair is untouched. -/
lemma settle_ledger (cfg : EngineConfig) (rates : RateOracle) (st : EngineState)
    (now : Nat) (acc : Account) (asset : AssetId) (a : Account) (s : AssetId) :
    (settle cfg rates st now acc asset).2.ledger a s =
      if a = acc ∧ s = asset then
        (st.ledger acc asset).filter (fun e => !entryEligible cfg now e)
      else st.ledger a s := by
  simp [settle, settleWalk_remaining]

/-- settle does not touch balances. -/
lemma settle_balances (cfg : EngineConfig) (rates : RateOracle) (st : EngineState)
    (now : Nat) (acc : Account) (asset : AssetId) :
    (settle cfg rates st now acc asset).2.balances = st.balances := rfl

/-- settle does not touch events. -/
lemma settle_events (cfg : EngineConfig) (rates : RateOracle) (st : EngineState)
    (now : Nat) (acc : Account) (asset : AssetId) :
    (settle cfg rates st now acc asset).2.events = st.events := rfl

/-- The waiting-period query reads only the entry list of the queried
pair. -/
lemma maxSecs_congr (cfg : EngineConfig) (st st' : EngineState) (now : Nat)
    (a : Account) (s : AssetId) (h : st'.ledger a s = st.ledger a s) :
    maxSecsLeftInWaitingPeriod cfg st' now a s =
      maxSecsLeftInWaitingPeriod cfg st now a s := by
  simp [maxSecsLeftInWaitingPeriod, h]

/-!  Concrete fixtures used by counterexamples and witnesses. -/

/-- A concrete engine configuration: 60 second waiting period, 0.3 percent
fee, engine enabled (the values the Exchanger test suite uses). -/
def cfg1 : EngineConfig := ⟨60, 3 * 10 ^ 15, true⟩

/-- A concrete fresh rate oracle: sEUR at 2 units, every other asset at
1 unit, nothing stale. -/
def rates1 : RateOracle := fun a =>
  if a == "sEUR" then ⟨2 * UNIT, false⟩ else ⟨UNIT, false⟩

/-- A concrete initial state: empty ledger, every balance 1000 units, no
events. -/
def st0 : EngineState := ⟨fun _ _ => [], fun _ _ => 1000 * UNIT, []⟩

/-- Claim C1, counterexample: a settle call with no entries (here: the
empty initial state) returns a ReconciliationResult whose reclaimAmount
and rebateAmount are both zero, so it is not the case that exactly one of
them is non-zero. -/
theorem settle_exactly_one_nonzero_cex :
    ¬ (((settle cfg1 rates1 st0 0 "alice" "sEUR").1.reclaimAmount ≠ 0 ∧
        (settle cfg1 rates1 st0 0 "alice" "sEUR").1.rebateAmount = 0) ∨
       ((settle cfg1 rates1 st0 0 "alice" "sEUR").1.reclaimAmount = 0 ∧
        (settle cfg1 rates1 st0 0 "alice" "sEUR").1.rebateAmount ≠ 0)) := by
  decide

/-- Claim C1 (amended): for every call settle(account, asset), the result
satisfies reclaimAmount = max(0, reclaimTotal - rebateTotal) and
rebateAmount = max(0, rebateTotal - reclaimTotal) for the totals
accumulated over the eligible entries, and at most one of the two is
non-zero (both are zero when the totals coincide, e.g. when no entry is
eligible). -/
theorem settle_net_result (cfg : EngineConfig) (rates : RateOracle) (st : EngineState)
    (now : Nat) (acc : Account) (asset : AssetId) :
    (((settle cfg rates st now acc asset).1.reclaimAmount : Int) =
        max 0 (((settleWalk cfg rates asset now (st.ledger acc asset)).1 : Int) -
               ((settleWalk cfg rates asset now (st.ledger acc asset)).2.1 : Int))) ∧
    (((settle cfg rates st now acc asset).1.rebateAmount : Int) =
        max 0 (((settleWalk cfg rates asset now (st.ledger acc asset)).2.1 : Int) -
               ((settleWalk cfg rates asset now (st.ledger acc asset)).1 : Int))) ∧
    ((settle cfg rates st now acc asset).1.reclaimAmount = 0 ∨
     (settle cfg rates st now acc asset).1.rebateAmount = 0) := by
  simp only [settle]
  refine ⟨?_, ?_, ?_⟩ <;> omega

/-- Claim C2: settling twice in succession (same clock, no exchange in
between) yields the zero ReconciliationResult on the second call and
leaves the ledger of the second call identical to that of the first; and
a settle call with no eligible entries changes no entry list at all. -/
theorem settle_idempotent (cfg : EngineConfig) (rates : RateOracle) (st : EngineState)
    (now : Nat) (acc : Account) (asset : AssetId) :
    ((settle cfg rates (settle cfg rates st now acc asset).2 now acc asset).1 = ⟨0, 0⟩) ∧
    (∀ a s, (settle cfg rates (settle cfg rates st now acc asset).2 now acc asset).2.ledger a s
          = (settle cfg rates st now acc asset).2.ledger a s) ∧
    ((∀ e ∈ st.ledger acc asset, entryEligible cfg now e = false) →
      ∀ a s, (settle cfg rates st now acc asset).2.ledger a s = st.ledger a s) := by
  have hst1 : (settle cfg rates st now acc asset).2.ledger acc asset =
      (st.ledger acc asset).filter (fun e => !entryEligible cfg now e) := by
    simp [settle_ledger]
  have hinel : ∀ e ∈ (settle cfg rates st now acc asset).2.ledger acc asset,
      entryEligible cfg now e = false := by
    rw [hst1]
    intro e he
    simpa using List.of_mem_filter he
  have hwalk := settleWalk_none_eligible cfg rates asset now _ hinel
  refine ⟨?_, ?_, ?_⟩
  · simp [settle] at hwalk ⊢
    simp [hwalk]
  · intro a s
    rw [settle_ledger]
    split
    · next hcond =>
      obtain ⟨rfl, rfl⟩ := hcond
      exact List.filter_eq_self.mpr (fun e he => by simp [hinel e he])
    · rfl
  · intro hall a s
    rw [settle_ledger]
    split
    · next hcond =>
      obtain ⟨rfl, rfl⟩ := hcond
      exact List.filter_eq_self.mpr (fun e he => by simp [hall e he])
    · rfl

/-- Claim C2, witness: the idempotence statement instantiated at the empty
initial state, where the no-eligible-entries antecedent holds. -/
theorem settle_idempotent_witness :
    ((settle cfg1 rates1 (settle cfg1 rates1 st0 5 "alice" "sEUR").2 5 "alice" "sEUR").1
        = ⟨0, 0⟩) ∧
    (∀ a s, (settle cfg1 rates1 (settle cfg1 rates1 st0 5 "alice" "sEUR").2 5 "alice" "sEUR").2.ledger a s
          = (settle cfg1 rates1 st0 5 "alice" "sEUR").2.ledger a s) ∧
    ((∀ e ∈ st0.ledger "alice" "sEUR", entryEligible cfg1 5 e = false) →
      ∀ a s, (settle cfg1 rates1 st0 5 "alice" "sEUR").2.ledger a s = st0.ledger a s) :=
  settle_idempotent cfg1 rates1 st0 5 "alice" "sEUR"

/-- Claim C3: with fresh rates, a positive source amount and a proportional
fee rate (at most one unit), quote computes the destination amount as
sourceAmount * rate(src) / rate(dest) (multiply before divide), the fee as
that amount times the fee rate, and the returned pair conserves value:
destAmountAfterFee + feeAmount = destAmountBeforeFee exactly. -/
theorem quote_fee_conservation (cfg : EngineConfig) (rates : RateOracle)
    (src dest : AssetId) (amount : Nat)
    (h1 : (rates src).stale = false) (h2 : (rates dest).stale = false)
    (h3 : 0 < amount) (h4 : cfg.exchangeFeeRate ≤ UNIT) :
    quote cfg rates src dest amount =
      .ok (amount * (rates src).price / (rates dest).price -
             amount * (rates src).price / (rates dest).price * cfg.exchangeFeeRate / UNIT,
           amount * (rates src).price / (rates dest).price * cfg.exchangeFeeRate / UNIT) ∧
    (amount * (rates src).price / (rates dest).price -
       amount * (rates src).price / (rates dest).price * cfg.exchangeFeeRate / UNIT) +
      amount * (rates src).price / (rates dest).price * cfg.exchangeFeeRate / UNIT =
      amount * (rates src).price / (rates dest).price := by
  have hU : 0 < UNIT := by norm_num [UNIT]
  have hfee : amount * (rates src).price / (rates dest).price * cfg.exchangeFeeRate / UNIT ≤
      amount * (rates src).price / (rates dest).price := by
    calc amount * (rates src).price / (rates dest).price * cfg.exchangeFeeRate / UNIT
        ≤ amount * (rates src).price / (rates dest).price * UNIT / UNIT :=
          Nat.div_le_div_right (Nat.mul_le_mul_left _ h4)
      _ = amount * (rates src).price / (rates dest).price := Nat.mul_div_cancel _ hU
  constructor
  · simp [quote, h1, h2, Nat.pos_iff_ne_zero.mp h3]
  · exact Nat.sub_add_cancel hfee

/-- Claim C3, witness: the quote statement instantiated at a concrete fresh
oracle, 100 units of sUSD into sEUR under the concrete configuration. -/
theorem quote_fee_conservation_witness :
    ((rates1 "sUSD").stale = false ∧ (rates1 "sEUR").stale = false ∧
     0 < 100 * UNIT ∧ cfg1.exchangeFeeRate ≤ UNIT) ∧
    (quote cfg1 rates1 "sUSD" "sEUR" (100 * UNIT) =
      .ok (100 * UNIT * (rates1 "sUSD").price / (rates1 "sEUR").price -
             100 * UNIT * (rates1 "sUSD").price / (rates1 "sEUR").price *
               cfg1.exchangeFeeRate / UNIT,
           100 * UNIT * (rates1 "sUSD").price / (rates1 "sEUR").price *
             cfg1.exchangeFeeRate / UNIT) ∧
    (100 * UNIT * (rates1 "sUSD").price / (rates1 "sEUR").price -
       100 * UNIT * (rates1 "sUSD").price / (rates1 "sEUR").price *
         cfg1.exchangeFeeRate / UNIT) +
      100 * UNIT * (rates1 "sUSD").price / (rates1 "sEUR").price *
        cfg1.exchangeFeeRate / UNIT =
      100 * UNIT * (rates1 "sUSD").price / (rates1 "sEUR").price) :=
  ⟨⟨by decide, by decide, by norm_num [UNIT], by decide⟩,
   quote_fee_conservation cfg1 rates1 "sUSD" "sEUR" (100 * UNIT)
     (by decide) (by decide) (by norm_num [UNIT]) (by decide)⟩

/-- Claim C8: for every account and asset with no recorded exchange entries
for that pair, the waiting-period query returns 0. -/
theorem maxSecs_no_entries (cfg : EngineConfig) (st : EngineState) (now : Nat)
    (acc : Account) (asset : AssetId) (h : st.ledger acc asset = []) :
    maxSecsLeftInWaitingPeriod cfg st now acc asset = 0 := by
  simp [maxSecsLeftInWaitingPeriod, h]

/-- Claim C8, witness: the no-entries statement at the empty initial
state. -/
theorem maxSecs_no_entries_witness :
    st0.ledger "alice" "sEUR" = [] ∧
    maxSecsLeftInWaitingPeriod cfg1 st0 5 "alice" "sEUR" = 0 :=
  ⟨rfl, maxSecs_no_entries cfg1 st0 5 "alice" "sEUR" rfl⟩

/-- Claim C4: with the waiting period configured to 60 seconds and the most
recent entry of the pair bearing timestamp 0, the waiting-period query
returns 60 at t=0, 5 at t=55 and 0 at every t at or after 60; and for any
state it is non-increasing as time advances with no new exchange. -/
theorem maxSecs_scenario (cfg : EngineConfig) (st : EngineState) (acc : Account)
    (asset : AssetId) (e : ExchangeEntry)
    (hw : cfg.waitingPeriodSeconds = 60)
    (hts : (st.ledger acc asset).getLast? = some e)
    (he : e.exchangeTimestamp = 0) :
    maxSecsLeftInWaitingPeriod cfg st 0 acc asset = 60 ∧
    maxSecsLeftInWaitingPeriod cfg st 55 acc asset = 5 ∧
    (∀ t, 60 ≤ t → maxSecsLeftInWaitingPeriod cfg st t acc asset = 0) ∧
    (∀ (st' : EngineState) (a : Account) (s : AssetId) (t1 t2 : Nat), t1 ≤ t2 →
      maxSecsLeftInWaitingPeriod cfg st' t2 a s ≤ maxSecsLeftInWaitingPeriod cfg st' t1 a s) := by
  refine ⟨?_, ?_, ?_, ?_⟩
  · simp only [maxSecsLeftInWaitingPeriod, hts, he, hw]
    omega
  · simp only [maxSecsLeftInWaitingPeriod, hts, he, hw]
    omega
  · intro t ht
    simp only [maxSecsLeftInWaitingPeriod, hts, he, hw]
    omega
  · intro st' a s t1 t2 h12
    simp only [maxSecsLeftInWaitingPeriod]
    cases (st'.ledger a s).getLast? with
    | none => exact Nat.le_refl 0
    | some e' => simp only; omega

/-- A concrete exchange entry with timestamp 0, used by the C4 witness. -/
def entry0 : ExchangeEntry := ⟨"sUSD", 50 * UNIT, 0, UNIT / 2⟩

/-- A concrete state whose only entry is entry0 for (alice, sEUR). -/
def stA : EngineState :=
  ⟨fun a s => if a == "alice" && s == "sEUR" then [entry0] else [],
   fun _ _ => 1000 * UNIT, []⟩

/-- Claim C4, witness: the scenario statement at the concrete state whose
latest (alice, sEUR) entry is at time 0, with the 60 second
configuration. -/
theorem maxSecs_scenario_witness :
    (cfg1.waitingPeriodSeconds = 60 ∧
     (stA.ledger "alice" "sEUR").getLast? = some entry0 ∧
     entry0.exchangeTimestamp = 0) ∧
    (maxSecsLeftInWaitingPeriod cfg1 stA 0 "alice" "sEUR" = 60 ∧
     maxSecsLeftInWaitingPeriod cfg1 stA 55 "alice" "sEUR" = 5 ∧
     (∀ t, 60 ≤ t → maxSecsLeftInWaitingPeriod cfg1 stA t "alice" "sEUR" = 0) ∧
     (∀ (st' : EngineState) (a : Account) (s : AssetId) (t1 t2 : Nat), t1 ≤ t2 →
       maxSecsLeftInWaitingPeriod cfg1 st' t2 a s ≤ maxSecsLeftInWaitingPeriod cfg1 st' t1 a s)) :=
  ⟨⟨rfl, by decide, rfl⟩,
   maxSecs_scenario cfg1 stA "alice" "sEUR" entry0 rfl (by decide) rfl⟩

/-!  Characterisation of a successful exchange call. -/

/-- The ledger is unchanged by applying a settlement adjustment, so the
post-settle state's ledger is the settle ledger. -/
lemma postSettleState_ledger (cfg : EngineConfig) (rates : RateOracle) (st : EngineState)
    (now : Nat) (acc : Account) (asset : AssetId) :
    (postSettleState cfg rates st now acc asset).ledger =
      (settle cfg rates st now acc asset).2.ledger := rfl

/-- Settling and applying the adjustment do not touch events. -/
lemma postSettleState_events (cfg : EngineConfig) (rates : RateOracle) (st : EngineState)
    (now : Nat) (acc : Account) (asset : AssetId) :
    (postSettleState cfg rates st now acc asset).events = st.events := rfl

/-- Applying the adjustment only touches the settled pair's balance. -/
lemma postSettleState_balances_other (cfg : EngineConfig) (rates : RateOracle)
    (st : EngineState) (now : Nat) (acc : Account) (asset : AssetId)
    (a : Account) (s : AssetId) (h : ¬(a = acc ∧ s = asset)) :
    (postSettleState cfg rates st now acc asset).balances a s = st.balances a s := by
  simp [postSettleState, applySettlement, settle, h]

/-- If every precondition of 4.5 holds, the exchange call succeeds. -/
lemma exchange_ok_intro (cfg : EngineConfig) (rates : RateOracle) (st : EngineState)
    (now : Nat) (acc : Account) (src : AssetId) (amt : Nat) (dest : AssetId)
    (h1 : cfg.enabled = true) (h2 : amt ≠ 0) (h3 : (rates src).stale = false)
    (h4 : (rates dest).stale = false) (h5 : src ≠ dest)
    (h6 : maxSecsLeftInWaitingPeriod cfg (postSettleState cfg rates st now acc src) now acc src
            = 0) :
    exchangeOk cfg rates st now acc src amt dest = true := by
  simp [exchangeOk, exchange, quote, h1, h2, h3, h4, h5, h6]

/-- A successful exchange call implies every precondition of 4.5, and the
resulting state and credited amount are those of recordExchange applied to
the post-settle state with the quoted amount. -/
lemma exchange_ok_elim (cfg : EngineConfig) (rates : RateOracle) (st : EngineState)
    (now : Nat) (acc : Account) (src : AssetId) (amt : Nat) (dest : AssetId)
    (h : exchangeOk cfg rates st now acc src amt dest = true) :
    cfg.enabled = true ∧ amt ≠ 0 ∧ (rates src).stale = false ∧
    (rates dest).stale = false ∧ src ≠ dest ∧
    maxSecsLeftInWaitingPeriod cfg (postSettleState cfg rates st now acc src) now acc src = 0 ∧
    exchangeState cfg rates st now acc src amt dest =
      recordExchange (postSettleState cfg rates st now acc src) now acc src amt dest
        (amt * (rates src).price / (rates dest).price -
          amt * (rates src).price / (rates dest).price * cfg.exchangeFeeRate / UNIT)
        ((rates src).price * UNIT / (rates dest).price) ∧
    exchangeAmount cfg rates st now acc src amt dest =
      amt * (rates src).price / (rates dest).price -
        amt * (rates src).price / (rates dest).price * cfg.exchangeFeeRate / UNIT := by
  by_cases h1 : cfg.enabled = false
  · simp [exchangeOk, exchange, h1] at h
  have h1' : cfg.enabled = true := by simpa using h1
  by_cases h2 : amt = 0
  · simp [exchangeOk, exchange, h1, h2] at h
  by_cases h3 : (rates src).stale = true
  · simp [exchangeOk, exchange, h1, h2, h3] at h
  have h3' : (rates src).stale = false := by simpa using h3
  by_cases h4 : (rates dest).stale = true
  · simp [exchangeOk, exchange, h1, h2, h3', h4] at h
  have h4' : (rates dest).stale = false := by simpa using h4
  by_cases h5 : src = dest
  · simp [exchangeOk, exchange, h1, h2, h3', h4', h5] at h
  by_cases h6 : maxSecsLeftInWaitingPeriod cfg (postSettleState cfg rates st now acc src)
      now acc src = 0
  · refine ⟨h1', h2, h3', h4', h5, h6, ?_, ?_⟩
    · simp [exchangeState, exchange, quote, h1, h2, h3', h4', h5, h6]
    · simp [exchangeAmount, exchange, quote, h1, h2, h3', h4', h5, h6]
  · simp [exchangeOk, exchange, h1, h2, h3', h4', h5, h6] at h

/-- Immediately after recording an exchange at the current time, the
destination pair's cooldown is the full configured period. -/
lemma recordExchange_maxSecs_dest (cfg : EngineConfig) (st : EngineState) (now : Nat)
    (acc : Account) (src : AssetId) (amt : Nat) (dest : AssetId) (x r : Nat) :
    maxSecsLeftInWaitingPeriod cfg (recordExchange st now acc src amt dest x r) now acc dest
      = cfg.waitingPeriodSeconds := by
  simp only [maxSecsLeftInWaitingPeriod, recordExchange, and_self, if_true, reduceIte,
    List.getLast?_concat]
  omega

/-- Recording an exchange leaves every entry list other than the
destination pair's untouched. -/
lemma recordExchange_ledger_other (st : EngineState) (now : Nat) (acc : Account)
    (src : AssetId) (amt : Nat) (dest : AssetId) (x r : Nat) (a : Account) (s : AssetId)
    (h : ¬(a = acc ∧ s = dest)) :
    (recordExchange st now acc src amt dest x r).ledger a s = st.ledger a s := by
  simp [recordExchange, h]

/-- Claim C5: a successful exchange resets the destination pair's cooldown
to the full configured period, measured from the new entry's timestamp:
immediately after the exchange the waiting-period query returns the full
waitingPeriodSeconds. -/
theorem exchange_resets_cooldown (cfg : EngineConfig) (rates : RateOracle) (st : EngineState)
    (now : Nat) (acc : Account) (src : AssetId) (amt : Nat) (dest : AssetId)
    (h : exchangeOk cfg rates st now acc src amt dest = true) :
    maxSecsLeftInWaitingPeriod cfg (exchangeState cfg rates st now acc src amt dest)
        now acc dest = cfg.waitingPeriodSeconds := by
  obtain ⟨-, -, -, -, -, -, hstate, -⟩ := exchange_ok_elim cfg rates st now acc src amt dest h
  rw [hstate, recordExchange_maxSecs_dest]

/-- Claim C5, witness: a concrete successful exchange of 100 sUSD into
sEUR at time 100 from the empty initial state leaves a full 60 second
cooldown on (alice, sEUR). -/
theorem exchange_resets_cooldown_witness :
    exchangeOk cfg1 rates1 st0 100 "alice" "sUSD" (100 * UNIT) "sEUR" = true ∧
    maxSecsLeftInWaitingPeriod cfg1
        (exchangeState cfg1 rates1 st0 100 "alice" "sUSD" (100 * UNIT) "sEUR")
        100 "alice" "sEUR" = cfg1.waitingPeriodSeconds :=
  ⟨by decide,
   exchange_resets_cooldown cfg1 rates1 st0 100 "alice" "sUSD" (100 * UNIT) "sEUR" (by decide)⟩

/-- Claim C6: a successful exchange starts a cooldown only on the
(account, destAsset) pair: afterwards the destination pair shows the full
waiting period, the source pair shows 0, and any other asset of the
account with no prior entries shows 0. -/
theorem exchange_cooldown_only_dest (cfg : EngineConfig) (rates : RateOracle)
    (st : EngineState) (now : Nat) (acc : Account) (src : AssetId) (amt : Nat)
    (dest : AssetId) (h : exchangeOk cfg rates st now acc src amt dest = true) :
    maxSecsLeftInWaitingPeriod cfg (exchangeState cfg rates st now acc src amt dest)
        now acc dest = cfg.waitingPeriodSeconds ∧
    maxSecsLeftInWaitingPeriod cfg (exchangeState cfg rates st now acc src amt dest)
        now acc src = 0 ∧
    (∀ asset, asset ≠ dest → st.ledger acc asset = [] →
      maxSecsLeftInWaitingPeriod cfg (exchangeState cfg rates st now acc src amt dest)
          now acc asset = 0) := by
  obtain ⟨-, -, -, -, h5, h6, hstate, -⟩ := exchange_ok_elim cfg rates st now acc src amt dest h
  rw [hstate]
  refine ⟨recordExchange_maxSecs_dest cfg _ now acc src amt dest _ _, ?_, ?_⟩
  · rw [maxSecs_congr cfg (postSettleState cfg rates st now acc src) _ now acc src
      (recordExchange_ledger_other _ now acc src amt dest _ _ acc src
        (fun hc => h5 hc.2))]
    exact h6
  · intro asset had hnil
    have hled : (recordExchange (postSettleState cfg rates st now acc src) now acc src amt dest
        (amt * (rates src).price / (rates dest).price -
          amt * (rates src).price / (rates dest).price * cfg.exchangeFeeRate / UNIT)
        ((rates src).price * UNIT / (rates dest).price)).ledger acc asset = [] := by
      rw [recordExchange_ledger_other _ now acc src amt dest _ _ acc asset
        (fun hc => had hc.2)]
      rw [postSettleState_ledger, settle_ledger]
      split
      · next hc => rw [hc.2] at hnil; simp [hnil]
      · exact hnil
    simp [maxSecsLeftInWaitingPeriod, hled]

/-- Claim C6, witness: after the concrete successful exchange, alice's
cooldown is 60 on sEUR, 0 on the source sUSD, and 0 on sBTC which has no
entries. -/
theorem exchange_cooldown_only_dest_witness :
    exchangeOk cfg1 rates1 st0 100 "alice" "sUSD" (100 * UNIT) "sEUR" = true ∧
    (maxSecsLeftInWaitingPeriod cfg1
        (exchangeState cfg1 rates1 st0 100 "alice" "sUSD" (100 * UNIT) "sEUR")
        100 "alice" "sEUR" = cfg1.waitingPeriodSeconds ∧
     maxSecsLeftInWaitingPeriod cfg1
        (exchangeState cfg1 rates1 st0 100 "alice" "sUSD" (100 * UNIT) "sEUR")
        100 "alice" "sUSD" = 0 ∧
     (∀ asset, asset ≠ "sEUR" → st0.ledger "alice" asset = [] →
       maxSecsLeftInWaitingPeriod cfg1
          (exchangeState cfg1 rates1 st0 100 "alice" "sUSD" (100 * UNIT) "sEUR")
          100 "alice" asset = 0)) :=
  ⟨by decide,
   exchange_cooldown_only_dest cfg1 rates1 st0 100 "alice" "sUSD" (100 * UNIT) "sEUR"
     (by decide)⟩

/-- Claim C7: cooldowns are independent per account: a successful exchange
by one account leaves every waiting-period query of any other account, on
every asset and at every time, unchanged, while the exchanging account's
destination cooldown is the full period from its exchange time. -/
theorem exchange_account_independence (cfg : EngineConfig) (rates : RateOracle)
    (st : EngineState) (now : Nat) (accB : Account) (src : AssetId) (amt : Nat)
    (dest : AssetId) (accA : Account) (hA : accA ≠ accB)
    (h : exchangeOk cfg rates st now accB src amt dest = true) :
    (∀ (asset : AssetId) (t : Nat),
      maxSecsLeftInWaitingPeriod cfg (exchangeState cfg rates st now accB src amt dest)
          t accA asset = maxSecsLeftInWaitingPeriod cfg st t accA asset) ∧
    maxSecsLeftInWaitingPeriod cfg (exchangeState cfg rates st now accB src amt dest)
        now accB dest = cfg.waitingPeriodSeconds := by
  obtain ⟨-, -, -, -, -, -, hstate, -⟩ := exchange_ok_elim cfg rates st now accB src amt dest h
  rw [hstate]
  constructor
  · intro asset t
    apply maxSecs_congr
    rw [recordExchange_ledger_other _ now accB src amt dest _ _ accA asset
      (fun hc => hA hc.1)]
    rw [postSettleState_ledger, settle_ledger]
    exact if_neg (fun hc => hA hc.1)
  · exact recordExchange_maxSecs_dest cfg _ now accB src amt dest _ _

/-- Claim C7, witness: bob's concrete exchange into sEUR leaves alice's
queries unchanged and gives bob a full 60 second cooldown on sEUR. -/
theorem exchange_account_independence_witness :
    ("alice" ≠ "bob" ∧ exchangeOk cfg1 rates1 st0 100 "bob" "sUSD" (100 * UNIT) "sEUR" = true) ∧
    ((∀ (asset : AssetId) (t : Nat),
       maxSecsLeftInWaitingPeriod cfg1
           (exchangeState cfg1 rates1 st0 100 "bob" "sUSD" (100 * UNIT) "sEUR")
           t "alice" asset = maxSecsLeftInWaitingPeriod cfg1 st0 t "alice" asset) ∧
     maxSecsLeftInWaitingPeriod cfg1
         (exchangeState cfg1 rates1 st0 100 "bob" "sUSD" (100 * UNIT) "sEUR")
         100 "bob" "sEUR" = cfg1.waitingPeriodSeconds) :=
  ⟨⟨by decide, by decide⟩,
   exchange_account_independence cfg1 rates1 st0 100 "bob" "sUSD" (100 * UNIT) "sEUR"
     "alice" (by decide) (by decide)⟩

/-- Claim C9: while the engine is disabled every exchange call fails with
ExchangeDisabled leaving balances and ledger unchanged; with the engine
enabled and the remaining preconditions holding, the same call succeeds,
appends exactly one exchange event carrying the account, both assets and
both amounts, and credits the destination balance with the returned
amount. -/
theorem exchange_disabled_behavior (cfg : EngineConfig) (rates : RateOracle)
    (st : EngineState) (now : Nat) (acc : Account) (src : AssetId) (amt : Nat)
    (dest : AssetId)
    (h2 : amt ≠ 0) (h3 : (rates src).stale = false) (h4 : (rates dest).stale = false)
    (h5 : src ≠ dest)
    (h6 : maxSecsLeftInWaitingPeriod { cfg with enabled := true }
            (postSettleState { cfg with enabled := true } rates st now acc src)
            now acc src = 0) :
    exchange { cfg with enabled := false } rates st now acc src amt dest
        = .error .ExchangeDisabled ∧
    (∀ a s, (exchangeState { cfg with enabled := false } rates st now acc src amt dest).balances a s
        = st.balances a s) ∧
    (∀ a s, (exchangeState { cfg with enabled := false } rates st now acc src amt dest).ledger a s
        = st.ledger a s) ∧
    exchangeOk { cfg with enabled := true } rates st now acc src amt dest = true ∧
    (exchangeState { cfg with enabled := true } rates st now acc src amt dest).events =
      st.events ++ [⟨acc, src, amt, dest,
        exchangeAmount { cfg with enabled := true } rates st now acc src amt dest⟩] ∧
    (exchangeState { cfg with enabled := true } rates st now acc src amt dest).balances acc dest =
      st.balances acc dest +
        exchangeAmount { cfg with enabled := true } rates st now acc src amt dest := by
  have hok := exchange_ok_intro { cfg with enabled := true } rates st now acc src amt dest
    rfl h2 h3 h4 h5 h6
  obtain ⟨-, -, -, -, -, -, hstate, hamt⟩ :=
    exchange_ok_elim { cfg with enabled := true } rates st now acc src amt dest hok
  have hnd : ¬(acc = acc ∧ dest = src) := fun hc => h5 hc.2.symm
  refine ⟨rfl, fun a s => rfl, fun a s => rfl, hok, ?_, ?_⟩
  · rw [hstate, hamt]
    rfl
  · rw [hstate, hamt]
    simp [recordExchange, Ne.symm h5,
      postSettleState_balances_other _ rates st now acc src acc dest hnd]

/-- Claim C9, witness: the disabled/enabled behavior instantiated at the
concrete configuration, oracle and empty initial state. -/
theorem exchange_disabled_behavior_witness :
    ((100 * UNIT ≠ 0) ∧ (rates1 "sUSD").stale = false ∧ (rates1 "sEUR").stale = false ∧
     "sUSD" ≠ "sEUR" ∧
     maxSecsLeftInWaitingPeriod { cfg1 with enabled := true }
        (postSettleState { cfg1 with enabled := true } rates1 st0 100 "alice" "sUSD")
        100 "alice" "sUSD" = 0) ∧
    (exchange { cfg1 with enabled := false } rates1 st0 100 "alice" "sUSD" (100 * UNIT) "sEUR"
        = .error .ExchangeDisabled ∧
     (∀ a s, (exchangeState { cfg1 with enabled := false } rates1 st0 100 "alice" "sUSD"
          (100 * UNIT) "sEUR").balances a s = st0.balances a s) ∧
     (∀ a s, (exchangeState { cfg1 with enabled := false } rates1 st0 100 "alice" "sUSD"
          (100 * UNIT) "sEUR").ledger a s = st0.ledger a s) ∧
     exchangeOk { cfg1 with enabled := true } rates1 st0 100 "alice" "sUSD"
        (100 * UNIT) "sEUR" = true ∧
     (exchangeState { cfg1 with enabled := true } rates1 st0 100 "alice" "sUSD"
          (100 * UNIT) "sEUR").events =
        st0.events ++ [⟨"alice", "sUSD", 100 * UNIT, "sEUR",
          exchangeAmount { cfg1 with enabled := true } rates1 st0 100 "alice" "sUSD"
            (100 * UNIT) "sEUR"⟩] ∧
     (exchangeState { cfg1 with enabled := true } rates1 st0 100 "alice" "sUSD"
          (100 * UNIT) "sEUR").balances "alice" "sEUR" =
        st0.balances "alice" "sEUR" +
          exchangeAmount { cfg1 with enabled := true } rates1 st0 100 "alice" "sUSD"
            (100 * UNIT) "sEUR") :=
  ⟨⟨by norm_num [UNIT], by decide, by decide, by decide, by decide⟩,
   exchange_disabled_behavior cfg1 rates1 st0 100 "alice" "sUSD" (100 * UNIT) "sEUR"
     (by norm_num [UNIT]) (by decide) (by decide) (by decide) (by decide)⟩

/-- If a requested synth is protected (XDR or sUSD) or absent from the
configured list, the sanity-check loop stops at some refusal, which sets
exit code 1 and prevents reaching loadConnections. -/
lemma sanityCheck_finds (synths : List String) (l : List String) (synth : String)
    (h1 : synth ∈ l) (h2 : synth ∈ ["XDR", "sUSD"] ∨ synth ∉ synths) :
    ∃ out, sanityCheckSynths synths l = some out ∧
      outcomeExitCode out = some 1 ∧ outcomeLoadsConnections out = false := by
  induction l with
  | nil => cases h1
  | cons s rest ih =>
    by_cases hf : (synths.filter (fun name => name == s)).length < 1
    · exact ⟨.refusedNotFound s, by simp [sanityCheckSynths, hf], rfl, rfl⟩
    · by_cases hp : (["XDR", "sUSD"] : List String).contains s = true
      · have hp' : s = "XDR" ∨ s = "sUSD" := by simpa using hp
        exact ⟨.refusedProtected s, by simp [sanityCheckSynths, hf, hp'], rfl, rfl⟩
      · have hp' : ¬(s = "XDR" ∨ s = "sUSD") := by simpa using hp
        have hmem : s ∈ synths := by
          by_contra hns
          apply hf
          have hnil : synths.filter (fun name => name == s) = [] := by
            refine List.filter_eq_nil_iff.mpr ?_
            intro a ha hba
            exact hns ((eq_of_beq hba) ▸ ha)
          simp [hnil]
        have hne : synth ≠ s := by
          intro heq
          subst heq
          rcases h2 with hx | hn
          · rcases List.mem_pair.mp hx with rfl | rfl
            · exact hp (by decide)
            · exact hp (by decide)
          · exact hn hmem
        have h1' : synth ∈ rest := by
          rcases List.mem_cons.mp h1 with rfl | hr
          · exact absurd rfl hne
          · exact hr
        obtain ⟨out, ho, he, hl⟩ := ih h1'
        exact ⟨out, by simpa [sanityCheckSynths, hf, hp'] using ho, he, hl⟩

/-- Claim C10, counterexample: invoking the action on a requested list
containing the protected synth XDR but without a --subclass option makes
it return early at the missing-subclass check without setting exit
code 1. -/
theorem replace_synths_refuses_cex :
    ¬ (outcomeExitCode (replaceSynthsAction ["XDR", "sBTC"] ["XDR"] none []) = some 1) := by
  decide

/-- Claim C10 (amended): provided a subclass is supplied and its compiled
source file exists, every requested list containing XDR, sUSD or a synth
name absent from the configured list makes the action set exit code 1 and
return before loadConnections, deployment or any transaction. -/
theorem replace_synths_refuses (synths synthsToReplace compiledSources : List String)
    (sc synth : String)
    (hmem : synth ∈ synthsToReplace)
    (hbad : synth ∈ ["XDR", "sUSD"] ∨ synth ∉ synths)
    (hsub : compiledSources.contains sc = true) :
    outcomeExitCode (replaceSynthsAction synths synthsToReplace (some sc) compiledSources)
      = some 1 ∧
    outcomeLoadsConnections (replaceSynthsAction synths synthsToReplace (some sc) compiledSources)
      = false := by
  obtain ⟨out, ho, he, hl⟩ := sanityCheck_finds synths synthsToReplace synth hmem hbad
  have hlen : ¬ synthsToReplace.length < 1 := by
    have := List.length_pos.mpr (List.ne_nil_of_mem hmem)
    omega
  have hsub' : sc ∈ compiledSources := by simpa using hsub
  simp [replaceSynthsAction, hlen, hsub', ho, he, hl]

/-- Claim C10, witness: requesting sBTC and the protected XDR with a valid
PurgeableSynth subclass refuses with exit code 1 before loading
connections. -/
theorem replace_synths_refuses_witness :
    ("XDR" ∈ (["sBTC", "XDR"] : List String) ∧
     ("XDR" ∈ (["XDR", "sUSD"] : List String) ∨
        "XDR" ∉ (["XDR", "sBTC", "sAUD"] : List String)) ∧
     (["PurgeableSynth"] : List String).contains "PurgeableSynth" = true) ∧
    (outcomeExitCode (replaceSynthsAction ["XDR", "sBTC", "sAUD"] ["sBTC", "XDR"]
        (some "PurgeableSynth") ["PurgeableSynth"]) = some 1 ∧
     outcomeLoadsConnections (replaceSynthsAction ["XDR", "sBTC", "sAUD"] ["sBTC", "XDR"]
        (some "PurgeableSynth") ["PurgeableSynth"]) = false) :=
  ⟨⟨by decide, by decide, by decide⟩,
   replace_synths_refuses ["XDR", "sBTC", "sAUD"] ["sBTC", "XDR"] ["PurgeableSynth"]
     "PurgeableSynth" "XDR" (by decide) (by decide) (by decide)⟩

end Synthetix
